import Mathlib

/-!
Verification of the ApexView client-side data-access layer
(`src/ui/src/lib/api.ts`, the storage providers, and the cache analytics
collector).  The TypeScript code is shallowly embedded: JavaScript objects
become Lean structures, `Date.now()` becomes an explicit `now : Nat`
parameter (durations measured with `performance.now()` are modelled as `0`
since wall-clock time does not advance inside a modelled call), promises
become `Except String` results, and the browser's storage backends become
association lists threaded through every operation.  The host's
`JSON.stringify` is modelled on the JSON value fragment the layer caches.
-/

namespace ApexView

/-- JSON-like values: the data cached by the layer (`any` in the source).
JavaScript's `null` and JSON `null` coincide, so `jnull` plays both roles. -/
inductive JValue : Type where
  | jnull
  | jbool (b : Bool)
  | jnum (n : Int)
  | jstr (s : String)
  | jarr (elems : List JValue)
  | jobj (fields : List (String × JValue))
deriving Repr

/-- Discriminator for the JavaScript `null` check (`x !== null`). -/
def JValue.isNull : JValue → Bool
  | .jnull => true
  | _ => false

/-- Escape of a single character inside a JSON string literal (model of the
host `JSON.stringify` escaping on the characters the layer uses). -/
def escChar (c : Char) : String :=
  if c = '"' then "\\\""
  else if c = '\\' then "\\\\"
  else if c = '\n' then "\\n"
  else if c = '\t' then "\\t"
  else if c = '\r' then "\\r"
  else String.singleton c

/-- Escape a whole string for JSON serialization. -/
def escapeString (s : String) : String :=
  s.data.foldr (fun c acc => escChar c ++ acc) ""

mutual
/-- Model of the host `JSON.stringify` on the cached value fragment. -/
def jsonStringify : JValue → String
  | .jnull => "null"
  | .jbool true => "true"
  | .jbool false => "false"
  | .jnum n => toString n
  | .jstr s => "\"" ++ escapeString s ++ "\""
  | .jarr es => "[" ++ stringifyList es ++ "]"
  | .jobj fs => "\x7b" ++ stringifyFields fs ++ "\x7d"

/-- Comma-separated serialization of array elements. -/
def stringifyList : List JValue → String
  | [] => ""
  | [v] => jsonStringify v
  | v :: rest => jsonStringify v ++ "," ++ stringifyList rest

/-- Comma-separated serialization of object fields. -/
def stringifyFields : List (String × JValue) → String
  | [] => ""
  | [(k, v)] => "\"" ++ escapeString k ++ "\":" ++ jsonStringify v
  | (k, v) :: rest =>
      "\"" ++ escapeString k ++ "\":" ++ jsonStringify v ++ "," ++ stringifyFields rest
end

/-- JavaScript truthiness of a cached value (used by `if (memCached)` and
`if (storageCached)` in `apiCall`). -/
def jsTruthy : JValue → Bool
  | .jnull => false
  | .jbool b => b
  | .jnum n => n != 0
  | .jstr s => !s.isEmpty
  | .jarr _ => true
  | .jobj _ => true

/-- Model of `String.prototype.startsWith`. -/
def jsStartsWith (s pre : String) : Bool :=
  pre.data.isPrefixOf s.data

/-- Model of `createCacheKey` (api.ts): replace every character outside
`[a-zA-Z0-9]` by an underscore. -/
def createCacheKey (url : String) : String :=
  String.mk (url.data.map (fun c => if c.isAlphanum then c else '_'))

/-! Configuration constants (api.ts `CACHE_CONFIG` / `RETRY_CONFIG`) and the
size threshold of `SmartStorageProvider`. -/

/-- Fast-tier TTL: `CACHE_CONFIG.MEMORY_TTL` (5 minutes, in ms). -/
def MEMORY_TTL : Nat := 5 * 60 * 1000

/-- Default durable-tier TTL: `CACHE_CONFIG.STORAGE_DEFAULT_TTL` (1 hour). -/
def STORAGE_DEFAULT_TTL : Nat := 60 * 60 * 1000

/-- Maximum retry attempts: `RETRY_CONFIG.MAX_RETRIES`. -/
def MAX_RETRIES : Nat := 2

/-- Base delay between retries in ms: `RETRY_CONFIG.RETRY_DELAY`. -/
def RETRY_DELAY : Nat := 1000

/-- Key namespace of the layer inside the host stores (constructor default
of both storage providers). -/
def F1_PREFIX : String := "f1-cache-"

/-- Size routing threshold of `SmartStorageProvider` (100 KiB). -/
def SIZE_THRESHOLD : Nat := 100 * 1024

/-- Runtime-configurable cache settings (api.ts `CACHE_SETTINGS`). -/
structure CacheSettings where
  useMemoryCache : Bool
  useStorageCache : Bool
  enableLogging : Bool
  enableAnalytics : Bool
  slowRequestThreshold : Nat
deriving DecidableEq, Repr

/-- Startup value of `CACHE_SETTINGS`. -/
def defaultSettings : CacheSettings := ⟨true, true, true, true, 1000⟩

/-! Analytics collector (cacheAnalytics.ts). -/

/-- Kind of a cache event (`CacheEvent.type`). -/
inductive EventType where
  | hit | miss | set | expired | error
deriving DecidableEq, Repr

/-- Origin of a cache event (`CacheEvent.source`). -/
inductive EventSource where
  | memory | localStorage | indexedDB | network
deriving DecidableEq, Repr

/-- A recorded cache event.  Durations come from `performance.now()` and are
rationals in principle; the orchestrator model records `0` for them. -/
structure CacheEvent where
  timestamp : Nat
  type : EventType
  source : EventSource
  key : String
  size : Option Nat
  duration : Option ℚ
  error : Option String
deriving DecidableEq, Repr

/-- An event as passed to `trackEvent` (`Omit<CacheEvent, 'timestamp'>`). -/
structure EventData where
  type : EventType
  source : EventSource
  key : String
  size : Option Nat
  duration : Option ℚ
  error : Option String
deriving DecidableEq, Repr

/-- Shorthand for an event datum with all optional fields absent. -/
def mkEvent (t : EventType) (src : EventSource) (key : String) : EventData :=
  ⟨t, src, key, none, none, none⟩

/-- State of the `CacheAnalytics` class: the event list (most recent first),
the ring-buffer capacity, and the enabled flag. -/
structure CacheAnalytics where
  events : List CacheEvent
  maxEvents : Nat
  enabled : Bool
deriving DecidableEq, Repr

/-- The constructor `new CacheAnalytics(maxEvents = 100, enabled = true)`. -/
def CacheAnalytics.init (maxEvents : Nat) (enabled : Bool) : CacheAnalytics :=
  ⟨[], maxEvents, enabled⟩

/-- The exported singleton `cacheAnalytics = new CacheAnalytics()`. -/
def cacheAnalyticsInit : CacheAnalytics := CacheAnalytics.init 100 true

/-- Model of `CacheAnalytics.trackEvent`: no-op when disabled; otherwise
`unshift` the timestamped event and truncate to `maxEvents` entries when the
list exceeds the capacity. -/
def CacheAnalytics.trackEvent (a : CacheAnalytics) (e : EventData) (now : Nat) :
    CacheAnalytics :=
  if !a.enabled then a
  else
    let fullEvent : CacheEvent := ⟨now, e.type, e.source, e.key, e.size, e.duration, e.error⟩
    let events := fullEvent :: a.events
    if events.length > a.maxEvents then ⟨events.take a.maxEvents, a.maxEvents, a.enabled⟩
    else ⟨events, a.maxEvents, a.enabled⟩

/-- Model of `CacheAnalytics.getEvents` at the level of list contents (the
returned array is a copy `[...this.events]`; aliasing is modelled separately
below for the frame property). -/
def CacheAnalytics.getEvents (a : CacheAnalytics) : List CacheEvent :=
  a.events

/-- Model of `CacheAnalytics.clearEvents`. -/
def CacheAnalytics.clearEvents (a : CacheAnalytics) : CacheAnalytics :=
  ⟨[], a.maxEvents, a.enabled⟩

/-- Derived statistics (`CacheStats`); the two `Record<string, number>`
count maps become total functions with the `|| 0` default built in. -/
structure CacheStats where
  hits : Nat
  misses : Nat
  hitRate : ℚ
  averageResponseTime : ℚ
  byType : EventType → Nat
  bySource : EventSource → Nat
  errors : Nat

/-- Model of `CacheAnalytics.getStats`: optionally window the events to
`now - timestamp < timeWindow`, then count and average. -/
def CacheAnalytics.getStats (a : CacheAnalytics) (timeWindow : Option Nat)
    (now : Nat) : CacheStats :=
  let filteredEvents : List CacheEvent := match timeWindow with
    | some w => a.events.filter (fun e => decide (now - e.timestamp < w))
    | none => a.events
  let hits := (filteredEvents.filter (fun e => e.type == .hit)).length
  let misses := (filteredEvents.filter (fun e => e.type == .miss)).length
  let errors := (filteredEvents.filter (fun e => e.type == .error)).length
  let responseTimes := filteredEvents.filterMap (fun e => e.duration)
  let averageResponseTime : ℚ :=
    if responseTimes.length ≠ 0 then responseTimes.sum / (responseTimes.length : ℚ) else 0
  { hits := hits
    misses := misses
    hitRate := if hits + misses > 0 then (hits : ℚ) / ((hits : ℚ) + (misses : ℚ)) else 0
    averageResponseTime := averageResponseTime
    byType := fun t => (filteredEvents.filter (fun e => e.type == t)).length
    bySource := fun src => (filteredEvents.filter (fun e => e.source == src)).length
    errors := errors }

/-! Durable tier (storage.ts): records stored under prefixed keys.  Both
backends hold `{ data, timestamp, ttl }` records; the stores are modelled as
association lists keyed by the full (prefixed) key, holding already-parsed
records (`JSON.parse ∘ JSON.stringify` is the identity on the cached
fragment). -/

/-- A persisted record `{ data, timestamp, ttl }`. -/
structure StoredItem where
  data : JValue
  timestamp : Nat
  ttl : Nat
deriving Repr

/-- A key-value backend: full key to stored record, newest binding first. -/
abbrev KVStore := List (String × StoredItem)

/-- Lookup of a full key in a backend. -/
def kvLookup : KVStore → String → Option StoredItem
  | [], _ => none
  | (k, item) :: rest, key => if k = key then some item else kvLookup rest key

/-- Removal of a full key from a backend (`removeItem` / `delete`). -/
def kvRemove (store : KVStore) (key : String) : KVStore :=
  store.filter (fun p => p.1 != key)

/-- Overwriting insertion of a full key (`setItem` / `put`). -/
def kvInsert (store : KVStore) (key : String) (item : StoredItem) : KVStore :=
  (key, item) :: kvRemove store key

namespace LocalStorageProvider

/-- Model of `LocalStorageProvider.get`: probe under the prefixed key; an
expired record is removed (lazy expiry) and read as `null`; the stored
`data` itself is returned otherwise (a stored JSON `null` is
indistinguishable from absence, exactly as in the source).  Read errors are
caught in the source and become `null`; the model's store never throws. -/
def get (pfx : String) (store : KVStore) (key : String) (now : Nat) :
    JValue × KVStore :=
  match kvLookup store (pfx ++ key) with
  | none => (.jnull, store)
  | some item =>
      if now - item.timestamp > item.ttl then
        (.jnull, kvRemove store (pfx ++ key))
      else
        (item.data, store)

/-- Model of `LocalStorageProvider.set`: store the record under the prefixed
key.  Write errors are caught in the source (`console.warn`) and make the
write a no-op; the model's store accepts every write. -/
def set (pfx : String) (store : KVStore) (key : String) (data : JValue)
    (ttl : Nat) (now : Nat) : KVStore :=
  kvInsert store (pfx ++ key) ⟨data, now, ttl⟩

/-- Model of `LocalStorageProvider.clear`: drop every key that starts with
the provider prefix followed by the optional sub-namespace. -/
def clear (pfx : String) (store : KVStore) (sub : Option String) : KVStore :=
  let fullPfx := match sub with
    | some s => pfx ++ s
    | none => pfx
  store.filter (fun p => !(jsStartsWith p.1 fullPfx))

end LocalStorageProvider

/-- Failure behaviour of the host IndexedDB during one operation.
`openFails` models a rejected `indexedDB.open` (awaited inside `try`, hence
caught by the provider); `getFails` / `putFails` model the read/write
request firing `onerror`, which rejects the promise *returned* from inside
the `try` block — in an async function such a rejection is adopted after
the `try` has been exited, so the provider's `catch` never sees it and the
rejection propagates to the awaiting caller. -/
structure IDBBehavior where
  openFails : Bool
  getFails : Bool
  putFails : Bool
deriving DecidableEq, Repr

/-- The behaviour of a healthy IndexedDB. -/
def honestIDB : IDBBehavior := ⟨false, false, false⟩

namespace IndexedDBProvider

/-- Model of `IndexedDBProvider.get`: a failed database open is caught and
read as `null`; a read-request `onerror` rejects the returned promise past
the `catch`; otherwise the record is read with lazy expiry like the
localStorage backend. -/
def get (pfx : String) (b : IDBBehavior) (store : KVStore) (key : String)
    (now : Nat) : Except String (JValue × KVStore) :=
  if b.openFails then .ok (.jnull, store)
  else if b.getFails then .error "IndexedDB read error"
  else match kvLookup store (pfx ++ key) with
    | none => .ok (.jnull, store)
    | some item =>
        if now - item.timestamp > item.ttl then
          .ok (.jnull, kvRemove store (pfx ++ key))
        else
          .ok (item.data, store)

/-- Model of `IndexedDBProvider.set`: a failed database open is caught and
makes the write a no-op; a put-request `onerror` rejects the returned
promise past the `catch`, so the caller's `await` throws. -/
def set (pfx : String) (b : IDBBehavior) (store : KVStore) (key : String)
    (data : JValue) (ttl : Nat) (now : Nat) : Except String KVStore :=
  if b.openFails then .ok store
  else if b.putFails then .error "IndexedDB write error"
  else .ok (kvInsert store (pfx ++ key) ⟨data, now, ttl⟩)

/-- Model of `IndexedDBProvider.clear`: cursor over the store deleting every
key with the given namespace (healthy-host model). -/
def clear (pfx : String) (store : KVStore) (sub : Option String) : KVStore :=
  let fullPfx := match sub with
    | some s => pfx ++ s
    | none => pfx
  store.filter (fun p => !(jsStartsWith p.1 fullPfx))

end IndexedDBProvider

/-- State of the composite `SmartStorageProvider`: a localStorage backend
and an IndexedDB backend. -/
structure SmartStorage where
  ls : KVStore
  idb : KVStore
deriving Repr

/-- Result of `SmartStorageProvider.get`: the value (or a propagated
IndexedDB rejection), the updated backends, and whether the IndexedDB
backend was probed at all. -/
structure SmartGetResult where
  value : Except String JValue
  st : SmartStorage
  probedIDB : Bool

namespace SmartStorageProvider

/-- Model of `SmartStorageProvider.get`: always probe localStorage first;
when it returns non-`null` that value short-circuits the IndexedDB probe;
otherwise fall through to IndexedDB. -/
def get (pfx : String) (b : IDBBehavior) (st : SmartStorage) (key : String)
    (now : Nat) : SmartGetResult :=
  let (localItem, ls) := LocalStorageProvider.get pfx st.ls key now
  if !localItem.isNull then
    ⟨.ok localItem, ⟨ls, st.idb⟩, false⟩
  else
    match IndexedDBProvider.get pfx b st.idb key now with
    | .error e => ⟨.error e, ⟨ls, st.idb⟩, true⟩
    | .ok (v, idb) => ⟨.ok v, ⟨ls, idb⟩, true⟩

/-- Model of `SmartStorageProvider.set`: serialize, measure, and route to
localStorage below the size threshold and to IndexedDB at or above it.  An
IndexedDB rejection propagates to the caller (see `IndexedDBProvider.set`). -/
def set (pfx : String) (threshold : Nat) (b : IDBBehavior) (st : SmartStorage)
    (key : String) (value : JValue) (ttl : Nat) (now : Nat) :
    Except String SmartStorage :=
  let size := (jsonStringify value).length
  if size < threshold then
    .ok ⟨LocalStorageProvider.set pfx st.ls key value ttl now, st.idb⟩
  else
    match IndexedDBProvider.set pfx b st.idb key value ttl now with
    | .error e => .error e
    | .ok idb => .ok ⟨st.ls, idb⟩

/-- Model of `SmartStorageProvider.clear`: clear both backends. -/
def clear (pfx : String) (st : SmartStorage) (sub : Option String) :
    SmartStorage :=
  ⟨LocalStorageProvider.clear pfx st.ls sub, IndexedDBProvider.clear pfx st.idb sub⟩

end SmartStorageProvider

/-! Fast tier and request orchestrator (api.ts). -/

/-- A fast-tier entry `{ data, timestamp }`. -/
structure MemEntry where
  data : JValue
  timestamp : Nat
deriving Repr

/-- Generic association-list lookup (JavaScript `Map.get`). -/
def alookup {α : Type} : List (String × α) → String → Option α
  | [], _ => none
  | (k, v) :: rest, key => if k = key then some v else alookup rest key

/-- Generic association-list removal (JavaScript `Map.delete`). -/
def aremove {α : Type} (m : List (String × α)) (key : String) :
    List (String × α) :=
  m.filter (fun p => p.1 != key)

/-- Generic overwriting insertion (JavaScript `Map.set`). -/
def ainsert {α : Type} (m : List (String × α)) (key : String) (v : α) :
    List (String × α) :=
  (key, v) :: aremove m key

/-- State of the fast tier (`MemoryCache.cache`). -/
structure MemoryCache where
  cache : List (String × MemEntry)
deriving Repr

/-- Record an analytics event when `CACHE_SETTINGS.enableAnalytics` is on. -/
def trackIf (s : CacheSettings) (a : CacheAnalytics) (e : EventData)
    (now : Nat) : CacheAnalytics :=
  if s.enableAnalytics then a.trackEvent e now else a

/-- Model of `MemoryCache.get`: absent keys record a `miss`; entries older
than `MEMORY_TTL` are deleted and record `expired`; live entries record a
`hit` and return their data (`null` plays absent, as in the source). -/
def MemoryCache.get (s : CacheSettings) (mc : MemoryCache) (a : CacheAnalytics)
    (key : String) (now : Nat) : JValue × MemoryCache × CacheAnalytics :=
  match alookup mc.cache key with
  | none =>
      (.jnull, mc, trackIf s a ⟨.miss, .memory, key, none, some 0, none⟩ now)
  | some entry =>
      if now - entry.timestamp > MEMORY_TTL then
        (.jnull, ⟨aremove mc.cache key⟩,
         trackIf s a ⟨.expired, .memory, key, none, some 0, none⟩ now)
      else
        (entry.data, mc,
         trackIf s a
           ⟨.hit, .memory, key, some (jsonStringify entry.data).length, some 0, none⟩ now)

/-- Model of `MemoryCache.set`: unconditional overwrite with the current
timestamp, recording a `set` event. -/
def MemoryCache.set (s : CacheSettings) (mc : MemoryCache) (a : CacheAnalytics)
    (key : String) (data : JValue) (now : Nat) : MemoryCache × CacheAnalytics :=
  (⟨ainsert mc.cache key ⟨data, now⟩⟩,
   trackIf s a ⟨.set, .memory, key, some (jsonStringify data).length, some 0, none⟩ now)

/-- Combined mutable state of the layer: the fast tier, the durable tier,
and the analytics collector singleton. -/
structure AppState where
  memory : MemoryCache
  storage : SmartStorage
  analytics : CacheAnalytics
deriving Repr

/-- Outcome of one network fetch attempt (HTTP errors, timeouts and decode
failures all surface as a thrown `Error` with a message). -/
inductive FetchOutcome where
  | ok (data : JValue)
  | err (msg : String)
deriving Repr

/-- Model of the host environment for one `apiCall`: the outcome of each
numbered fetch attempt, the IndexedDB behaviour during each attempt's
write-back, and the IndexedDB behaviour during the two durable-tier probes. -/
structure Env where
  net : Nat → FetchOutcome
  idbPut : Nat → IDBBehavior
  idbProbe : IDBBehavior
  idbFallback : IDBBehavior

/-- An environment in which every fetch succeeds with `data` and the
IndexedDB is healthy. -/
def allOkEnv (data : JValue) : Env :=
  ⟨fun _ => .ok data, fun _ => honestIDB, honestIDB, honestIDB⟩

/-- An environment in which every fetch fails with `msg` and the IndexedDB
is healthy. -/
def allFailEnv (msg : String) : Env :=
  ⟨fun _ => .err msg, fun _ => honestIDB, honestIDB, honestIDB⟩

/-- Result of a modelled call: the settled promise, the final state, the
number of fetch attempts performed, and the backoff delays awaited between
consecutive attempts (in order). -/
structure CallResult where
  result : Except String JValue
  st : AppState
  attempts : Nat
  delays : List Nat

/-- Body of the per-attempt `try` block of `fetchWithRetry`: the fetch, and
on success the write-through into both tiers.  A fetch failure, and equally
a rejection propagating out of the durable-tier write (see
`IndexedDBProvider.set`), lands in the attempt's `catch`, which records an
`error` analytics event and carries the error message into the retry logic;
the result pairs the outcome with the state after the attempt's side
effects. -/
def attemptOnce (env : Env) (s : CacheSettings) (key : String)
    (useCache : Bool) (cacheTTL : Nat) (now : Nat) (attemptIdx : Nat)
    (st : AppState) : Except (String × AppState) (JValue × AppState) :=
  match env.net attemptIdx with
  | .err msg =>
      .error (msg,
        ⟨st.memory, st.storage,
         trackIf s st.analytics ⟨.error, .network, key, none, some 0, some msg⟩ now⟩)
  | .ok data =>
      if useCache then
        let ma := if s.useMemoryCache then MemoryCache.set s st.memory st.analytics key data now
                  else (st.memory, st.analytics)
        let stSet := if s.useStorageCache then
            SmartStorageProvider.set F1_PREFIX SIZE_THRESHOLD (env.idbPut attemptIdx)
              st.storage key data cacheTTL now
          else .ok st.storage
        match stSet with
        | .error e =>
            .error (e,
              ⟨ma.1, st.storage,
               trackIf s ma.2 ⟨.error, .network, key, none, some 0, some e⟩ now⟩)
        | .ok storage =>
            .ok (data,
              ⟨ma.1, storage,
               trackIf s ma.2
                 ⟨.set, .network, key, some (jsonStringify data).length, some 0, none⟩ now⟩)
      else
        .ok (data, st)

/-- Retry loop of `fetchWithRetry` from attempt index `attemptIdx` on, with
`fuel` remaining iterations (`fetchWithRetry` starts it with `retries + 1`,
matching `for (attempt = 0; attempt <= retries; attempt++)`).  After each
failed attempt strictly below the retry limit the loop waits
`RETRY_DELAY * 2 ^ attemptIdx` (exponential backoff) before the next
attempt; an exhausted loop rethrows the last error. -/
def attemptLoop (env : Env) (s : CacheSettings) (key : String)
    (useCache : Bool) (cacheTTL : Nat) (retries : Nat) (now : Nat) :
    AppState → Nat → Nat → String → CallResult
  | st, _, 0, lastError => ⟨.error lastError, st, 0, []⟩
  | st, attemptIdx, fuel + 1, _ =>
    match attemptOnce env s key useCache cacheTTL now attemptIdx st with
    | .ok (data, st₁) => ⟨.ok data, st₁, 1, []⟩
    | .error (msg, st₁) =>
      if attemptIdx < retries then
        let r := attemptLoop env s key useCache cacheTTL retries now st₁ (attemptIdx + 1) fuel msg
        ⟨r.result, r.st, r.attempts + 1, RETRY_DELAY * 2 ^ attemptIdx :: r.delays⟩
      else
        ⟨.error msg, st₁, 1, []⟩

/-- Model of `fetchWithRetry`. -/
def fetchWithRetry (env : Env) (s : CacheSettings) (key : String)
    (useCache : Bool) (cacheTTL : Nat) (retries : Nat) (now : Nat)
    (st : AppState) : CallResult :=
  attemptLoop env s key useCache cacheTTL retries now st 0 (retries + 1) ""

/-- Model of `fetchAndCache` (the prefetch worker): one un-retried fetch,
write-through on success; every failure — including a rejected durable-tier
write, which here *is* awaited inside the `try` — is caught and recorded as
an `error` analytics event only. -/
def fetchAndCache (env : Env) (s : CacheSettings) (st : AppState)
    (cacheKey : String) (cacheTTL : Nat) (now : Nat) : AppState :=
  match env.net 0 with
  | .err msg =>
      ⟨st.memory, st.storage,
       trackIf s st.analytics ⟨.error, .network, cacheKey, none, some 0, some msg⟩ now⟩
  | .ok data =>
      let ma := if s.useMemoryCache then MemoryCache.set s st.memory st.analytics cacheKey data now
                else (st.memory, st.analytics)
      let stSet := if s.useStorageCache then
          SmartStorageProvider.set F1_PREFIX SIZE_THRESHOLD (env.idbPut 0)
            st.storage cacheKey data cacheTTL now
        else .ok st.storage
      match stSet with
      | .error e =>
          ⟨ma.1, st.storage,
           trackIf s ma.2 ⟨.error, .network, cacheKey, none, some 0, some e⟩ now⟩
      | .ok storage =>
          ⟨ma.1, storage,
           trackIf s ma.2 ⟨.set, .network, cacheKey, some (jsonStringify data).length, some 0, none⟩ now⟩

/-- Options of `apiCall` with their defaults resolved. -/
structure ApiOptions where
  useCache : Bool
  cacheTTL : Nat
  retries : Nat
  prefetch : Bool
  forceFresh : Bool
  priority : Nat
deriving Repr

/-- The defaulted options of a plain `apiCall(url)`. -/
def defaultOptions : ApiOptions :=
  ⟨true, STORAGE_DEFAULT_TTL, MAX_RETRIES, false, false, 1⟩

/-- Network phase of `apiCall`: run `fetchWithRetry`; on terminal failure
probe the durable tier once more with its *normal* (expiry-checking) `get`
and serve a truthy result as degraded data, otherwise rethrow the last
network error.  Errors of the fallback probe itself are ignored. -/
def networkPhase (env : Env) (s : CacheSettings) (cacheKey : String)
    (useCache : Bool) (cacheTTL : Nat) (retries : Nat) (now : Nat)
    (st : AppState) : CallResult :=
  let r := fetchWithRetry env s cacheKey useCache cacheTTL retries now st
  match r.result with
  | .ok _ => r
  | .error msg =>
    if s.useStorageCache then
      let f := SmartStorageProvider.get F1_PREFIX env.idbFallback r.st.storage cacheKey now
      match f.value with
      | .ok v =>
        if jsTruthy v then
          ⟨.ok v, ⟨r.st.memory, f.st, r.st.analytics⟩, r.attempts, r.delays⟩
        else
          ⟨.error msg, ⟨r.st.memory, f.st, r.st.analytics⟩, r.attempts, r.delays⟩
      | .error _ =>
          ⟨.error msg, ⟨r.st.memory, f.st, r.st.analytics⟩, r.attempts, r.delays⟩
    else
      ⟨.error msg, r.st, r.attempts, r.delays⟩

/-- Model of `apiCall`: prefetch mode hands the work to `fetchAndCache` and
immediately resolves with the empty object; otherwise probe the fast tier,
then the durable tier (backfilling the fast tier on a truthy durable hit),
record a network `miss` when both probes fail, and enter the network phase. -/
def apiCall (env : Env) (s : CacheSettings) (st : AppState) (url : String)
    (opts : ApiOptions) (now : Nat) : CallResult :=
  let cacheKey := createCacheKey url
  if opts.prefetch then
    ⟨.ok (.jobj []), fetchAndCache env s st cacheKey opts.cacheTTL now, 1, []⟩
  else
    let useProbe := opts.useCache && !opts.forceFresh
    let mr := if useProbe && s.useMemoryCache then
        MemoryCache.get s st.memory st.analytics cacheKey now
      else (.jnull, st.memory, st.analytics)
    if jsTruthy mr.1 then
      ⟨.ok mr.1, ⟨mr.2.1, st.storage, mr.2.2⟩, 0, []⟩
    else
      let continueNet := fun (storage : SmartStorage) (a : CacheAnalytics) =>
        let a₃ := if useProbe then trackIf s a (mkEvent .miss .network cacheKey) now else a
        networkPhase env s cacheKey opts.useCache opts.cacheTTL opts.retries now
          ⟨mr.2.1, storage, a₃⟩
      if useProbe && s.useStorageCache then
        let r := SmartStorageProvider.get F1_PREFIX env.idbProbe st.storage cacheKey now
        match r.value with
        | .ok v =>
          if jsTruthy v then
            let ma := if s.useMemoryCache then MemoryCache.set s mr.2.1 mr.2.2 cacheKey v now
                      else (mr.2.1, mr.2.2)
            ⟨.ok v, ⟨ma.1, r.st, ma.2⟩, 0, []⟩
          else
            continueNet r.st mr.2.2
        | .error e =>
            continueNet r.st
              (trackIf s mr.2.2 ⟨.error, .localStorage, cacheKey, none, none, some e⟩ now)
      else
        continueNet st.storage mr.2.2

namespace cacheManager

/-- Model of `cacheManager.clearAll`: empty the fast tier, clear the whole
durable namespace in both backends, and clear the analytics log. -/
def clearAll (s : CacheSettings) (st : AppState) : AppState :=
  ⟨⟨[]⟩, SmartStorageProvider.clear F1_PREFIX st.storage none,
   if s.enableAnalytics then st.analytics.clearEvents else st.analytics⟩

/-- Model of `cacheManager.clearByType`: clear only the durable-tier keys in
the resource-type sub-namespace; the fast tier and the analytics log are not
touched. -/
def clearByType (st : AppState) (ty : String) : AppState :=
  ⟨st.memory, SmartStorageProvider.clear F1_PREFIX st.storage (some ty), st.analytics⟩

end cacheManager

/-! Reference-level model of the analytics event array, to state the frame
property of `getEvents` (the source returns the fresh copy
`[...this.events]`, never the internal array itself). -/

/-- A heap of JavaScript arrays of cache events, addressed by allocation
index. -/
structure EventArrayHeap where
  cells : List (List CacheEvent)

/-- Contents of the array behind a reference. -/
def EventArrayHeap.read (h : EventArrayHeap) (r : Nat) : List CacheEvent :=
  h.cells.getD r []

/-- In-place mutation of the array behind a reference. -/
def EventArrayHeap.write (h : EventArrayHeap) (r : Nat) (v : List CacheEvent) :
    EventArrayHeap :=
  ⟨h.cells.set r v⟩

/-- Allocation of a fresh array. -/
def EventArrayHeap.alloc (h : EventArrayHeap) (v : List CacheEvent) :
    EventArrayHeap × Nat :=
  (⟨h.cells ++ [v]⟩, h.cells.length)

/-- Model of `CacheAnalytics.getEvents` at the reference level: read the
internal array `this.events` (behind `eventsRef`) and allocate a fresh array
with the same contents (`[...this.events]`), returning its reference. -/
def getEventsAlloc (h : EventArrayHeap) (eventsRef : Nat) :
    EventArrayHeap × Nat :=
  h.alloc (h.read eventsRef)

/-! Helper lemmas. -/

/-- Looking up the key just inserted into a JavaScript map finds the new
value. -/
@[simp]
theorem alookup_ainsert {α : Type} (m : List (String × α)) (k : String) (v : α) :
    alookup (ainsert m k v) k = some v := by
  simp [ainsert, alookup]

/-- Looking up the key just inserted into a storage backend finds the new
record. -/
@[simp]
theorem kvLookup_kvInsert (store : KVStore) (k : String) (item : StoredItem) :
    kvLookup (kvInsert store k item) k = some item := by
  simp [kvInsert, kvLookup]

/-! Settlement of the claims. -/

/-- Claim C1.  The claim asserts that when the durable tier holds a
logically expired entry and every network attempt fails, `apiCall` returns
the expired value, the fallback probe ignoring the normal expiry check.  On
the code this fails: the stale-read fallback calls the durable tier's
*normal* `get`, which enforces expiry.  At the concrete failing input — a
durable entry of age 1000 ms with ttl 10 ms and a network that fails all
`MAX_RETRIES + 1` attempts — `apiCall` rejects with the last network error,
and the expired entry has even been deleted by the lazy-expiry read, so the
promised degraded value is never served. -/
theorem c1_stale_fallback_rejects :
    (apiCall (allFailEnv "network down") defaultSettings
      ⟨⟨[]⟩, ⟨[(F1_PREFIX ++ createCacheKey "u", ⟨.jstr "x", 0, 10⟩)], []⟩, cacheAnalyticsInit⟩
      "u" defaultOptions 1000).result = .error "network down" ∧
    (apiCall (allFailEnv "network down") defaultSettings
      ⟨⟨[]⟩, ⟨[(F1_PREFIX ++ createCacheKey "u", ⟨.jstr "x", 0, 10⟩)], []⟩, cacheAnalyticsInit⟩
      "u" defaultOptions 1000).st.storage.ls = [] :=
  ⟨rfl, rfl⟩

/-- Claim C3, counterexample.  The claim quantifies over *every* value, but
`apiCall` guards the fast-tier hit with JavaScript truthiness
(`if (memCached)`).  Immediately after writing the falsy value `false` into
the fast tier, `apiCall` ignores the hit, performs one network fetch, and
returns the network response instead of the cached value. -/
theorem c3_falsy_value_refetches :
    ((apiCall (allOkEnv (.jstr "fresh")) defaultSettings
        ⟨(MemoryCache.set defaultSettings ⟨[]⟩ cacheAnalyticsInit
            (createCacheKey "u") (.jbool false) 7).1,
          ⟨[], []⟩,
          (MemoryCache.set defaultSettings ⟨[]⟩ cacheAnalyticsInit
            (createCacheKey "u") (.jbool false) 7).2⟩
        "u" defaultOptions 7).result = .ok (.jstr "fresh")) ∧
    ((apiCall (allOkEnv (.jstr "fresh")) defaultSettings
        ⟨(MemoryCache.set defaultSettings ⟨[]⟩ cacheAnalyticsInit
            (createCacheKey "u") (.jbool false) 7).1,
          ⟨[], []⟩,
          (MemoryCache.set defaultSettings ⟨[]⟩ cacheAnalyticsInit
            (createCacheKey "u") (.jbool false) 7).2⟩
        "u" defaultOptions 7).attempts = 1) :=
  ⟨rfl, rfl⟩

/-- Claim C3, amended: for every *truthy* value `v`, immediately after a
write-through `set` of `(k, v)` into the fast tier, `apiCall` with
`useCache = true` and `forceFresh = false` returns `v` from the fast tier
and performs no network fetch (zero attempts, no delays). -/
theorem c3_fast_tier_round_trip (env : Env) (st : AppState) (url : String)
    (v : JValue) (now : Nat) (hv : jsTruthy v = true) :
    ((apiCall env defaultSettings
        ⟨(MemoryCache.set defaultSettings st.memory st.analytics (createCacheKey url) v now).1,
         st.storage,
         (MemoryCache.set defaultSettings st.memory st.analytics (createCacheKey url) v now).2⟩
        url defaultOptions now).result = .ok v) ∧
    ((apiCall env defaultSettings
        ⟨(MemoryCache.set defaultSettings st.memory st.analytics (createCacheKey url) v now).1,
         st.storage,
         (MemoryCache.set defaultSettings st.memory st.analytics (createCacheKey url) v now).2⟩
        url defaultOptions now).attempts = 0) := by
  constructor <;>
    simp [apiCall, defaultOptions, defaultSettings, MemoryCache.set, MemoryCache.get,
      MEMORY_TTL, hv, Nat.sub_self]

/-- Witness for the amended claim C3 at the concrete truthy value
`"value"`. -/
theorem c3_fast_tier_round_trip_witness :
    jsTruthy (.jstr "value") = true ∧
    ((apiCall (allOkEnv (.jstr "fresh")) defaultSettings
        ⟨(MemoryCache.set defaultSettings ⟨[]⟩ cacheAnalyticsInit
            (createCacheKey "u") (.jstr "value") 7).1,
          ⟨[], []⟩,
          (MemoryCache.set defaultSettings ⟨[]⟩ cacheAnalyticsInit
            (createCacheKey "u") (.jstr "value") 7).2⟩
        "u" defaultOptions 7).result = .ok (.jstr "value")) :=
  ⟨rfl, (c3_fast_tier_round_trip (allOkEnv (.jstr "fresh"))
      ⟨⟨[]⟩, ⟨[], []⟩, cacheAnalyticsInit⟩ "u" (.jstr "value") 7 rfl).1⟩

/-- Claim C10: `getEvents` returns a fresh copy of the internal event log.
The returned reference is distinct from the collector's internal array, its
contents equal the internal log at the time of the call, overwriting the
returned array leaves the internal array unchanged, and two consecutive
calls with no intervening mutation return equal sequences. -/
theorem c10_getEvents_fresh_copy (h : EventArrayHeap) (r : Nat)
    (hr : r < h.cells.length) :
    (getEventsAlloc h r).2 ≠ r ∧
    (getEventsAlloc h r).1.read (getEventsAlloc h r).2 = h.read r ∧
    (∀ m : List CacheEvent,
       ((getEventsAlloc h r).1.write (getEventsAlloc h r).2 m).read r = h.read r) ∧
    ((getEventsAlloc (getEventsAlloc h r).1 r).1.read
        (getEventsAlloc (getEventsAlloc h r).1 r).2 =
      (getEventsAlloc h r).1.read (getEventsAlloc h r).2) := by
  refine ⟨?_, ?_, ?_, ?_⟩
  · simp only [getEventsAlloc, EventArrayHeap.alloc]
    omega
  · simp [getEventsAlloc, EventArrayHeap.alloc, EventArrayHeap.read, List.getD,
      List.get?_eq_getElem?, List.getElem?_concat_length]
  · intro m
    simp only [getEventsAlloc, EventArrayHeap.alloc, EventArrayHeap.read,
      EventArrayHeap.write, List.getD, List.get?_eq_getElem?]
    rw [List.getElem?_set_ne (by omega), List.getElem?_append]
    simp [hr]
  · simp only [getEventsAlloc, EventArrayHeap.alloc, EventArrayHeap.read, List.getD,
      List.get?_eq_getElem?]
    rw [List.getElem?_concat_length, List.getElem?_concat_length]
    rw [List.getElem?_append]
    simp [hr]

/-- Claim C4: the durable tier routes a `set` by serialized size — below the
threshold the record goes to Backend A (localStorage) leaving Backend B
untouched, at or above it to Backend B (IndexedDB) leaving Backend A
untouched — and `get` finds the freshly written value either way.  `get`
always probes Backend A first and a non-`null` Backend A result
short-circuits the Backend B probe.  The value is required to be
distinguishable from `null` (a stored JSON `null` is indistinguishable from
absence for any JavaScript caller), and in the large-value case Backend A is
required not to shadow the key (`set` never clears the other backend, so a
live Backend A record for the same key would win the probe order). -/
theorem c4_size_routing (pfx : String) (threshold : Nat) (st : SmartStorage)
    (k : String) (v : JValue) (ttl now : Nat) (hv : v.isNull = false)
    (hclean : threshold ≤ (jsonStringify v).length →
      kvLookup st.ls (pfx ++ k) = none) :
    ((jsonStringify v).length < threshold →
      SmartStorageProvider.set pfx threshold honestIDB st k v ttl now =
        .ok ⟨kvInsert st.ls (pfx ++ k) ⟨v, now, ttl⟩, st.idb⟩) ∧
    (threshold ≤ (jsonStringify v).length →
      SmartStorageProvider.set pfx threshold honestIDB st k v ttl now =
        .ok ⟨st.ls, kvInsert st.idb (pfx ++ k) ⟨v, now, ttl⟩⟩) ∧
    (∀ st₂ : SmartStorage,
      SmartStorageProvider.set pfx threshold honestIDB st k v ttl now = .ok st₂ →
      (SmartStorageProvider.get pfx honestIDB st₂ k now).value = .ok v) ∧
    (∀ t : SmartStorage,
      (LocalStorageProvider.get pfx t.ls k now).1.isNull = false →
      (SmartStorageProvider.get pfx honestIDB t k now).probedIDB = false ∧
      (SmartStorageProvider.get pfx honestIDB t k now).value =
        .ok (LocalStorageProvider.get pfx t.ls k now).1) := by
  refine ⟨?_, ?_, ?_, ?_⟩
  · intro h
    simp [SmartStorageProvider.set, LocalStorageProvider.set, h]
  · intro h
    simp [SmartStorageProvider.set, IndexedDBProvider.set, honestIDB, Nat.not_lt.mpr h]
  · intro st₂ hset
    by_cases hlt : (jsonStringify v).length < threshold
    · have hA : SmartStorageProvider.set pfx threshold honestIDB st k v ttl now =
          .ok ⟨kvInsert st.ls (pfx ++ k) ⟨v, now, ttl⟩, st.idb⟩ := by
        simp [SmartStorageProvider.set, LocalStorageProvider.set, hlt]
      rw [hA] at hset
      have h₁ := (Except.ok.inj hset).symm
      subst h₁
      simp [SmartStorageProvider.get, LocalStorageProvider.get, Nat.sub_self, hv]
    · have hle := Nat.not_lt.mp hlt
      have hB : SmartStorageProvider.set pfx threshold honestIDB st k v ttl now =
          .ok ⟨st.ls, kvInsert st.idb (pfx ++ k) ⟨v, now, ttl⟩⟩ := by
        simp [SmartStorageProvider.set, IndexedDBProvider.set, honestIDB, hlt]
      rw [hB] at hset
      have h₁ := (Except.ok.inj hset).symm
      subst h₁
      simp [SmartStorageProvider.get, LocalStorageProvider.get, hclean hle,
        IndexedDBProvider.get, honestIDB, JValue.isNull, Nat.sub_self, hv]
  · intro t h
    rcases hls : LocalStorageProvider.get pfx t.ls k now with ⟨lv, ls₂⟩
    rw [hls] at h
    simp only at h
    constructor <;> simp [SmartStorageProvider.get, hls, h]

/-- Witness for claim C4: a small value is routed to Backend A and read
back. -/
theorem c4_size_routing_witness :
    ((jsonStringify (JValue.jstr "x")).length < SIZE_THRESHOLD) ∧
    ((SmartStorageProvider.get F1_PREFIX honestIDB
        ⟨kvInsert [] (F1_PREFIX ++ "k") ⟨.jstr "x", 0, 10⟩, []⟩ "k" 0).value =
      .ok (.jstr "x")) := by
  have h := c4_size_routing F1_PREFIX SIZE_THRESHOLD ⟨[], []⟩ "k" (.jstr "x") 10 0 rfl
    (fun _ => rfl)
  exact ⟨by decide, h.2.2.1 _ (h.1 (by decide))⟩

/-- Helper: `trackEvent` never changes the ring-buffer capacity. -/
theorem trackEvent_maxEvents (a : CacheAnalytics) (e : EventData) (now : Nat) :
    (a.trackEvent e now).maxEvents = a.maxEvents := by
  simp only [CacheAnalytics.trackEvent]
  split_ifs <;> rfl

/-- Helper: `trackEvent` keeps the event log within the capacity. -/
theorem trackEvent_length_le (a : CacheAnalytics) (e : EventData) (now : Nat)
    (h : a.events.length ≤ a.maxEvents) :
    (a.trackEvent e now).events.length ≤ a.maxEvents := by
  simp only [CacheAnalytics.trackEvent]
  split_ifs with h₁ h₂
  · exact h
  · simp
  · simp at h₂
    simpa using h₂

/-- Helper: any `trackEvent` fold keeps the event log within the capacity
and preserves the capacity. -/
theorem runEvents_invariant (l : List (EventData × Nat)) (a : CacheAnalytics)
    (h : a.events.length ≤ a.maxEvents) :
    (l.foldl (fun acc p => acc.trackEvent p.1 p.2) a).events.length ≤ a.maxEvents ∧
    (l.foldl (fun acc p => acc.trackEvent p.1 p.2) a).maxEvents = a.maxEvents := by
  induction l generalizing a with
  | nil => exact ⟨h, rfl⟩
  | cons p rest ih =>
    have h₁ := trackEvent_length_le a p.1 p.2 h
    have h₂ := trackEvent_maxEvents a p.1 p.2
    have := ih (a.trackEvent p.1 p.2) (h₂ ▸ h₁)
    exact ⟨h₂ ▸ this.1, h₂ ▸ this.2⟩

/-- Claim C6: the analytics log is a most-recent-first ring buffer.  After
any sequence of `trackEvent` calls on a fresh collector the log holds at
most `maxEvents` events; and on an enabled, within-capacity collector,
`trackEvent` makes `getEvents` return the new (timestamped) event consed at
the front with the oldest (tail) entries dropped beyond the capacity. -/
theorem c6_ring_buffer (m : Nat) (enab : Bool) (l : List (EventData × Nat))
    (a : CacheAnalytics) (e : EventData) (now : Nat) :
    ((l.foldl (fun acc p => acc.trackEvent p.1 p.2)
        (CacheAnalytics.init m enab)).events.length ≤ m) ∧
    (a.enabled = true → a.events.length ≤ a.maxEvents →
      (a.trackEvent e now).getEvents =
        (CacheEvent.mk now e.type e.source e.key e.size e.duration e.error ::
          a.events).take a.maxEvents) := by
  constructor
  · exact (runEvents_invariant l (CacheAnalytics.init m enab) (by simp [CacheAnalytics.init])).1
  · intro hen hlen
    simp only [CacheAnalytics.trackEvent, CacheAnalytics.getEvents, hen,
      Bool.not_true, Bool.false_eq_true, if_false]
    split_ifs with h₁
    · rfl
    · simp only [List.length_cons, Nat.not_lt] at h₁
      exact (List.take_of_length_le (by simpa using h₁)).symm

/-- Witness for claim C6 on a concrete enabled collector. -/
theorem c6_ring_buffer_witness :
    ((CacheAnalytics.mk [] 100 true).trackEvent (mkEvent .hit .memory "k") 5).getEvents =
      ([⟨5, .hit, .memory, "k", none, none, none⟩] : List CacheEvent).take 100 :=
  (c6_ring_buffer 100 true [] ⟨[], 100, true⟩ (mkEvent .hit .memory "k") 5).2 rfl
    (by decide)

/-- Helper: the hit rate computed by `getStats` equals the ratio of hits to
hits plus misses, with an empty denominator yielding `0`. -/
theorem getStats_hitRate_eq (a : CacheAnalytics) (win : Option Nat) (now : Nat) :
    (a.getStats win now).hitRate =
      if (a.getStats win now).hits + (a.getStats win now).misses = 0 then 0
      else ((a.getStats win now).hits : ℚ) /
        (((a.getStats win now).hits : ℚ) + ((a.getStats win now).misses : ℚ)) := by
  simp only [CacheAnalytics.getStats]
  split_ifs with h₁ h₂ h₂ <;> first
    | rfl
    | omega

/-- Claim C7: `getStats` counts hits and misses over the selected events —
those with `now - timestamp < windowMs` when a window is given, the whole
buffer otherwise — and returns `hitRate = hits / (hits + misses)` with the
convention that an empty denominator yields `0` (a total rational, never an
undefined value); in particular 3 hits and 1 miss give `0.75` and an empty
log gives `0`. -/
theorem c7_hit_rate (a : CacheAnalytics) (w now : Nat) :
    ((a.getStats (some w) now).hits =
      ((a.events.filter (fun e => decide (now - e.timestamp < w))).filter
        (fun e => e.type == .hit)).length) ∧
    ((a.getStats (some w) now).misses =
      ((a.events.filter (fun e => decide (now - e.timestamp < w))).filter
        (fun e => e.type == .miss)).length) ∧
    ((a.getStats none now).hits = (a.events.filter (fun e => e.type == .hit)).length) ∧
    ((a.getStats none now).misses = (a.events.filter (fun e => e.type == .miss)).length) ∧
    (∀ win : Option Nat,
      (a.getStats win now).hitRate =
        if (a.getStats win now).hits + (a.getStats win now).misses = 0 then 0
        else ((a.getStats win now).hits : ℚ) /
          (((a.getStats win now).hits : ℚ) + ((a.getStats win now).misses : ℚ))) ∧
    ((CacheAnalytics.mk
        [⟨0, .hit, .memory, "a", none, none, none⟩, ⟨0, .hit, .memory, "b", none, none, none⟩,
         ⟨0, .hit, .memory, "c", none, none, none⟩, ⟨0, .miss, .network, "d", none, none, none⟩]
        100 true).getStats none 0).hitRate = 3 / 4 ∧
    ((CacheAnalytics.mk [] 100 true).getStats none 0).hitRate = 0 := by
  refine ⟨rfl, rfl, rfl, rfl, fun win => getStats_hitRate_eq a win now, ?_, rfl⟩
  have h1 : ((CacheAnalytics.mk
      [⟨0, .hit, .memory, "a", none, none, none⟩, ⟨0, .hit, .memory, "b", none, none, none⟩,
       ⟨0, .hit, .memory, "c", none, none, none⟩, ⟨0, .miss, .network, "d", none, none, none⟩]
      100 true).getStats none 0).hits = 3 := rfl
  have h2 : ((CacheAnalytics.mk
      [⟨0, .hit, .memory, "a", none, none, none⟩, ⟨0, .hit, .memory, "b", none, none, none⟩,
       ⟨0, .hit, .memory, "c", none, none, none⟩, ⟨0, .miss, .network, "d", none, none, none⟩]
      100 true).getStats none 0).misses = 1 := rfl
  rw [getStats_hitRate_eq, h1, h2]
  norm_num

/-- Helper: the retry loop performs at most `fuel` fetch attempts. -/
theorem attemptLoop_attempts_le (env : Env) (s : CacheSettings) (key : String)
    (useCache : Bool) (cacheTTL retries now : Nat) :
    ∀ (fuel : Nat) (st : AppState) (attemptIdx : Nat) (lastErr : String),
      (attemptLoop env s key useCache cacheTTL retries now st attemptIdx fuel lastErr).attempts ≤
        fuel := by
  intro fuel
  induction fuel with
  | zero =>
    intro st aIdx le
    simp [attemptLoop]
  | succ n ih =>
    intro st aIdx le
    rcases hout : attemptOnce env s key useCache cacheTTL now aIdx st with ⟨msg, st₁⟩ | ⟨d, st₁⟩
    · simp only [attemptLoop, hout]
      split
      · exact Nat.succ_le_succ (ih st₁ (aIdx + 1) msg)
      · simp
    · simp [attemptLoop, hout]

/-- Helper: the retry loop performs one more fetch attempt than it awaits
backoff delays, and the delays follow the exponential schedule
`RETRY_DELAY * 2 ^ attemptIndex` starting at the loop's first attempt
index. -/
theorem attemptLoop_attempts_delays (env : Env) (s : CacheSettings) (key : String)
    (useCache : Bool) (cacheTTL retries now : Nat) :
    ∀ (fuel : Nat) (st : AppState) (attemptIdx : Nat) (lastErr : String),
      1 ≤ fuel → attemptIdx + fuel = retries + 1 →
      ((attemptLoop env s key useCache cacheTTL retries now st attemptIdx fuel
          lastErr).attempts =
        (attemptLoop env s key useCache cacheTTL retries now st attemptIdx fuel
          lastErr).delays.length + 1) ∧
      ((attemptLoop env s key useCache cacheTTL retries now st attemptIdx fuel
          lastErr).delays =
        (List.range ((attemptLoop env s key useCache cacheTTL retries now st attemptIdx fuel
          lastErr).delays.length)).map (fun i => RETRY_DELAY * 2 ^ (attemptIdx + i))) := by
  intro fuel
  induction fuel with
  | zero =>
    intro st aIdx le h1 hinv
    omega
  | succ n ih =>
    intro st aIdx le h1 hinv
    rcases hout : attemptOnce env s key useCache cacheTTL now aIdx st with ⟨msg, st₁⟩ | ⟨d, st₁⟩
    · simp only [attemptLoop, hout]
      split
      · next hlt =>
        obtain ⟨ih1, ih2⟩ := ih st₁ (aIdx + 1) msg (by omega) (by omega)
        refine ⟨by simp [ih1], ?_⟩
        simp only [List.length_cons]
        rw [List.range_succ_eq_map, List.map_cons, List.map_map, Nat.add_zero]
        have hfun : (fun i => RETRY_DELAY * 2 ^ (aIdx + i)) ∘ Nat.succ =
            fun i => RETRY_DELAY * 2 ^ (aIdx + 1 + i) := by
          funext i
          have h : aIdx + Nat.succ i = aIdx + 1 + i := by omega
          simp [Function.comp, h]
        rw [hfun, ← ih2]
        simp
      · simp [attemptLoop]
    · simp [attemptLoop, hout]

/-- Claim C5: `fetchWithRetry` performs at most `retries + 1` fetch
attempts, the delays between consecutive attempts follow
`RETRY_DELAY * 2 ^ attemptIndex` (base 1000 ms), and in the concrete
scenario where the first two attempts fail and the third succeeds with
`retries = 2`, exactly 3 attempts occur with delays 1000 ms and 2000 ms and
the call resolves with the third attempt's decoded result. -/
theorem c5_retry_backoff (env : Env) (s : CacheSettings) (key : String)
    (u : Bool) (cacheTTL retries now : Nat) (st : AppState) (m0 m1 : String) :
    ((fetchWithRetry env s key u cacheTTL retries now st).attempts ≤ retries + 1) ∧
    ((fetchWithRetry env s key u cacheTTL retries now st).delays =
      (List.range ((fetchWithRetry env s key u cacheTTL retries now st).attempts - 1)).map
        (fun i => RETRY_DELAY * 2 ^ i)) ∧
    (env.net 0 = .err m0 → env.net 1 = .err m1 → env.net 2 = .ok (.jstr "pit") →
      ((fetchWithRetry env defaultSettings key true cacheTTL 2 now st).attempts = 3 ∧
       (fetchWithRetry env defaultSettings key true cacheTTL 2 now st).delays = [1000, 2000] ∧
       (fetchWithRetry env defaultSettings key true cacheTTL 2 now st).result =
         .ok (.jstr "pit"))) := by
  refine ⟨attemptLoop_attempts_le env s key u cacheTTL retries now _ _ _ _, ?_, ?_⟩
  · obtain ⟨h1, h2⟩ := attemptLoop_attempts_delays env s key u cacheTTL retries now
      (retries + 1) st 0 "" (by omega) (by omega)
    simp only [fetchWithRetry] at h1 h2 ⊢
    rw [h1, Nat.add_sub_cancel]
    simpa using h2
  · intro h0 h1 h2
    have hsz : (jsonStringify (JValue.jstr "pit")).length < SIZE_THRESHOLD := by decide
    refine ⟨?_, ?_, ?_⟩ <;>
      simp [fetchWithRetry, attemptLoop, attemptOnce, h0, h1, h2, defaultSettings,
        SmartStorageProvider.set, LocalStorageProvider.set, MemoryCache.set, hsz,
        RETRY_DELAY]

/-- Witness for claim C5 in a concrete fail-fail-succeed environment. -/
theorem c5_retry_backoff_witness :
    ((fetchWithRetry
        ⟨fun i => if i = 0 then .err "b0" else if i = 1 then .err "b1" else .ok (.jstr "pit"),
         fun _ => honestIDB, honestIDB, honestIDB⟩
        defaultSettings "k" true 1000 2 0 ⟨⟨[]⟩, ⟨[], []⟩, cacheAnalyticsInit⟩).attempts = 3) ∧
    ((fetchWithRetry
        ⟨fun i => if i = 0 then .err "b0" else if i = 1 then .err "b1" else .ok (.jstr "pit"),
         fun _ => honestIDB, honestIDB, honestIDB⟩
        defaultSettings "k" true 1000 2 0 ⟨⟨[]⟩, ⟨[], []⟩, cacheAnalyticsInit⟩).delays =
      [1000, 2000]) ∧
    ((fetchWithRetry
        ⟨fun i => if i = 0 then .err "b0" else if i = 1 then .err "b1" else .ok (.jstr "pit"),
         fun _ => honestIDB, honestIDB, honestIDB⟩
        defaultSettings "k" true 1000 2 0 ⟨⟨[]⟩, ⟨[], []⟩, cacheAnalyticsInit⟩).result =
      .ok (.jstr "pit")) :=
  (c5_retry_backoff
    ⟨fun i => if i = 0 then .err "b0" else if i = 1 then .err "b1" else .ok (.jstr "pit"),
     fun _ => honestIDB, honestIDB, honestIDB⟩
    defaultSettings "k" true 1000 2 0 ⟨⟨[]⟩, ⟨[], []⟩, cacheAnalyticsInit⟩ "b0" "b1").2.2
    rfl rfl rfl

/-- Helper: the escape of each character expands to a one-character string
for characters needing no escape, and the serialized length of a plain
string follows. -/
theorem foldr_escChar_length (l : List Char) (h : ∀ c ∈ l, (escChar c).length = 1) :
    (l.foldr (fun c acc => escChar c ++ acc) "").length = l.length := by
  induction l with
  | nil => rfl
  | cons c rest ih =>
    simp only [List.foldr_cons, String.length_append, List.length_cons]
    rw [h c (by simp), ih (fun x hx => h x (by simp [hx]))]
    omega

/-- Helper: the JSON serialization of the string of `n` letters `a` has
length `n + 2` (the two quotes). -/
theorem stringify_repA_length (n : Nat) :
    (jsonStringify (JValue.jstr (String.mk (List.replicate n 'a')))).length = n + 2 := by
  have h := foldr_escChar_length (List.replicate n 'a')
    (fun c hc => by rw [List.eq_of_mem_replicate hc]; decide)
  have h2 : (escapeString (String.mk (List.replicate n 'a'))).length = n := by
    simpa [escapeString] using h
  show ("\"" ++ escapeString (String.mk (List.replicate n 'a')) ++ "\"").length = n + 2
  rw [String.length_append, String.length_append, h2]
  have hq : ("\"" : String).length = 1 := rfl
  rw [hq]
  omega

/-- Claim C2.  The claim asserts that durable-tier write failures are
converted to no-op writes and never cause the network fetch to be retried
or the caller's promise to reject.  On the code this fails for the
IndexedDB backend: `IndexedDBProvider.set` returns the request promise from
inside its `try` block, so a put-request `onerror` rejection bypasses the
`catch` and is rethrown by the `await storageCache.set(...)` inside
`fetchWithRetry`'s per-attempt `try`.  Whenever the fetch succeeds with a
payload at or above the size threshold (routed to IndexedDB) and the put
request errors, the attempt is treated as failed: with `retries = 0` the
caller's promise rejects with the IndexedDB error even though the network
responded, and with `retries = 1` the successful fetch is performed a
second time. -/
theorem c2_durable_write_failure_escapes (env : Env) (st : AppState)
    (key : String) (cacheTTL now : Nat) (data : JValue)
    (h0 : env.net 0 = .ok data) (h1 : env.net 1 = .ok data)
    (hbig : SIZE_THRESHOLD ≤ (jsonStringify data).length)
    (hput0 : env.idbPut 0 = ⟨false, false, true⟩)
    (hput1 : env.idbPut 1 = ⟨false, false, true⟩) :
    ((fetchWithRetry env defaultSettings key true cacheTTL 0 now st).result =
      .error "IndexedDB write error") ∧
    ((fetchWithRetry env defaultSettings key true cacheTTL 1 now st).attempts = 2) := by
  constructor <;>
    simp [fetchWithRetry, attemptLoop, attemptOnce, h0, h1, hput0, hput1, defaultSettings,
      SmartStorageProvider.set, IndexedDBProvider.set, MemoryCache.set,
      Nat.not_lt.mpr hbig]

/-- Witness for claim C2 at a concrete 100 KiB payload. -/
theorem c2_durable_write_failure_witness :
    (SIZE_THRESHOLD ≤
      (jsonStringify (JValue.jstr (String.mk (List.replicate 102400 'a')))).length) ∧
    ((fetchWithRetry
        ⟨fun _ => .ok (.jstr (String.mk (List.replicate 102400 'a'))),
         fun _ => ⟨false, false, true⟩, honestIDB, honestIDB⟩
        defaultSettings "k" true 1000 0 0 ⟨⟨[]⟩, ⟨[], []⟩, cacheAnalyticsInit⟩).result =
      .error "IndexedDB write error") := by
  have hbig : SIZE_THRESHOLD ≤
      (jsonStringify (JValue.jstr (String.mk (List.replicate 102400 'a')))).length := by
    rw [stringify_repA_length]
    norm_num [SIZE_THRESHOLD]
  exact ⟨hbig,
    (c2_durable_write_failure_escapes
      ⟨fun _ => .ok (.jstr (String.mk (List.replicate 102400 'a'))),
       fun _ => ⟨false, false, true⟩, honestIDB, honestIDB⟩
      ⟨⟨[]⟩, ⟨[], []⟩, cacheAnalyticsInit⟩ "k" 1000 0 _ rfl rfl hbig rfl rfl).1⟩

/-- Helper: on an enabled, within-capacity collector the newest tracked
event is at the head of the log. -/
theorem trackEvent_head (a : CacheAnalytics) (e : EventData) (now : Nat)
    (hen : a.enabled = true) (hm : 1 ≤ a.maxEvents) :
    (a.trackEvent e now).events.head? =
      some ⟨now, e.type, e.source, e.key, e.size, e.duration, e.error⟩ := by
  simp only [CacheAnalytics.trackEvent, hen, Bool.not_true, Bool.false_eq_true, if_false]
  split_ifs with h
  · obtain ⟨k, hk⟩ : ∃ k, a.maxEvents = k + 1 := ⟨a.maxEvents - 1, by omega⟩
    simp [hk]
  · simp

/-- Claim C9: prefetch-mode absorption.  An `apiCall` with `prefetch = true`
always resolves with the empty object — independently of whether the
background fetch-and-cache succeeds or fails, so it never rejects and never
returns the fetched data — and a background fetch failure is routed to the
analytics log only (recorded as an `error` event at the head of the log). -/
theorem c9_prefetch_absorbs (env : Env) (s : CacheSettings) (st : AppState)
    (url : String) (opts : ApiOptions) (now : Nat) (m : String)
    (hpre : opts.prefetch = true) :
    ((apiCall env s st url opts now).result = .ok (.jobj [])) ∧
    (s.enableAnalytics = true → st.analytics.enabled = true →
      1 ≤ st.analytics.maxEvents → env.net 0 = .err m →
      (apiCall env s st url opts now).st.analytics.events.head? =
        some ⟨now, .error, .network, createCacheKey url, none, some 0, some m⟩) := by
  constructor
  · simp [apiCall, hpre]
  · intro hsa hen hm hnet
    simp only [apiCall, hpre, if_true, fetchAndCache, hnet, trackIf, hsa]
    exact trackEvent_head st.analytics _ now hen hm

/-- Witness for claim C9: a failing prefetch on a fresh state still resolves
with the empty object. -/
theorem c9_prefetch_absorbs_witness :
    ((apiCall (allFailEnv "down") defaultSettings ⟨⟨[]⟩, ⟨[], []⟩, cacheAnalyticsInit⟩
        "u" ⟨true, 1000, 2, true, false, 1⟩ 0).result = .ok (.jobj [])) ∧
    ((apiCall (allFailEnv "down") defaultSettings ⟨⟨[]⟩, ⟨[], []⟩, cacheAnalyticsInit⟩
        "u" ⟨true, 1000, 2, true, false, 1⟩ 0).st.analytics.events.head? =
      some ⟨0, .error, .network, createCacheKey "u", none, some 0, some "down"⟩) := by
  have h := c9_prefetch_absorbs (allFailEnv "down") defaultSettings
    ⟨⟨[]⟩, ⟨[], []⟩, cacheAnalyticsInit⟩ "u" ⟨true, 1000, 2, true, false, 1⟩ 0 "down" rfl
  exact ⟨h.1, h.2 rfl rfl (by decide) rfl⟩

/-- Helper: a key in the `drivers` sub-namespace is never in the `races`
sub-namespace (the two full prefixes differ before either ends). -/
theorem races_drivers_disjoint (k : String)
    (h : jsStartsWith k (F1_PREFIX ++ "drivers") = true) :
    jsStartsWith k (F1_PREFIX ++ "races") = false := by
  unfold jsStartsWith at *
  by_contra hr
  rw [Bool.not_eq_false] at hr
  rw [List.isPrefixOf_iff_prefix] at h hr
  have hlen : (F1_PREFIX ++ "races").data.length ≤ (F1_PREFIX ++ "drivers").data.length := by
    decide
  have hpre := List.prefix_of_prefix_length_le hr h hlen
  rw [← List.isPrefixOf_iff_prefix] at hpre
  exact absurd hpre (by decide)

/-- Claim C8: `clearByType("races")` removes exactly the durable-tier
records (in both backends) whose key lies in the `races` sub-namespace,
keeps every `drivers`-prefixed record, and leaves the fast tier's in-memory
map (and the analytics log) completely unchanged. -/
theorem c8_clear_by_type (st : AppState) :
    ((cacheManager.clearByType st "races").memory = st.memory) ∧
    ((cacheManager.clearByType st "races").analytics = st.analytics) ∧
    (∀ p : String × StoredItem,
      p ∈ (cacheManager.clearByType st "races").storage.ls ↔
        p ∈ st.storage.ls ∧ jsStartsWith p.1 (F1_PREFIX ++ "races") = false) ∧
    (∀ p : String × StoredItem,
      p ∈ (cacheManager.clearByType st "races").storage.idb ↔
        p ∈ st.storage.idb ∧ jsStartsWith p.1 (F1_PREFIX ++ "races") = false) ∧
    (∀ p : String × StoredItem, p ∈ st.storage.ls →
      jsStartsWith p.1 (F1_PREFIX ++ "drivers") = true →
      p ∈ (cacheManager.clearByType st "races").storage.ls) ∧
    (∀ p : String × StoredItem, p ∈ st.storage.idb →
      jsStartsWith p.1 (F1_PREFIX ++ "drivers") = true →
      p ∈ (cacheManager.clearByType st "races").storage.idb) := by
  refine ⟨rfl, rfl, ?_, ?_, ?_, ?_⟩
  · intro p
    simp [cacheManager.clearByType, SmartStorageProvider.clear,
      LocalStorageProvider.clear, List.mem_filter]
  · intro p
    simp [cacheManager.clearByType, SmartStorageProvider.clear,
      IndexedDBProvider.clear, List.mem_filter]
  · intro p hp hd
    simp [cacheManager.clearByType, SmartStorageProvider.clear,
      LocalStorageProvider.clear, List.mem_filter, hp, races_drivers_disjoint p.1 hd]
  · intro p hp hd
    simp [cacheManager.clearByType, SmartStorageProvider.clear,
      IndexedDBProvider.clear, List.mem_filter, hp, races_drivers_disjoint p.1 hd]

/-- Witness for claim C8: a concrete `drivers` record survives
`clearByType("races")`. -/
theorem c8_clear_by_type_witness :
    (F1_PREFIX ++ "drivers_x", (⟨.jstr "d", 0, 10⟩ : StoredItem)) ∈
      (cacheManager.clearByType
        ⟨⟨[]⟩, ⟨[(F1_PREFIX ++ "races_2024", ⟨.jstr "r", 0, 10⟩),
                 (F1_PREFIX ++ "drivers_x", ⟨.jstr "d", 0, 10⟩)], []⟩, cacheAnalyticsInit⟩
        "races").storage.ls :=
  (c8_clear_by_type _).2.2.2.2.1 _ (by simp) (by decide)

/-- Witness for claim C10 at a concrete heap holding one internal array. -/
theorem c10_getEvents_fresh_copy_witness :
    (0 : Nat) < (EventArrayHeap.mk [[⟨0, .hit, .memory, "k", none, none, none⟩]]).cells.length ∧
    (getEventsAlloc ⟨[[⟨0, .hit, .memory, "k", none, none, none⟩]]⟩ 0).2 ≠ 0 :=
  ⟨by decide,
   (c10_getEvents_fresh_copy ⟨[[⟨0, .hit, .memory, "k", none, none, none⟩]]⟩ 0
      (by decide)).1⟩

end ApexView
